import Mathlib

/-!
Verification of the KeyQuest game session engine.

The engine is shallowly embedded from `src/App.jsx` (the functions
`initializeGame`, `moveToNextWord`, `handleKeyPress`, `handleRiddleAnswer`,
`endGame` and the countdown timer effect) together with the configuration
object `GAME_CONFIG` from `src/constants/texts.js`.

Modelling conventions:
 - JavaScript numbers holding scores, counters and the clock become `Int`
   with the explicit `max 0 _` / `min _ 60` clamps the source writes.
 - JavaScript strings become `String`; `w[i]` becomes `w.data[i]?`
   (`undefined` becomes `none`), and JavaScript string truthiness
   (`!currentWord`, `!key`) becomes an explicit emptiness test.
 - The `setTimeout(.., 500)` that the source schedules when the wrong-key
   cap is reached is modelled by a `pendingAdvance` counter on the session:
   scheduling increments it, and a separate `timeout` event fires one
   pending `moveToNextWord(false)` call.
 - The reactive timer `useEffect` is folded into the `tick` event: a tick
   decrements the clock when positive, and the effect branch that calls
   `endGame()` as soon as `timeLeft === 0 && PLAYING` runs right after.
 - `Math.random()`-driven choices become an extra `Nat` argument `r`;
   `Math.floor(Math.random() * n)` becomes `r % n` (any value in `[0, n)`
   is realisable).
-/

namespace KeyQuest

/-- `GAME_STATES` from `App.jsx`. -/
inductive GameState where
  | menu
  | playing
  | riddle
  | gameOver
  deriving DecidableEq, Repr

/-- One riddle set of the catalog (`data/riddles.json` entry shape used by
the engine: the `words` array; `options`/`correctAnswer` are consumed by the
`RiddleModal` collaborator which reports a boolean to the engine). -/
structure RiddleSet where
  words : List String
  options : List String
  correctAnswer : Nat
  deriving DecidableEq, Repr

/-- `GAME_CONFIG` from `src/constants/texts.js`. -/
structure GameConfig where
  INITIAL_TIME : Int
  BONUS_TIME : Int
  MAX_TIME : Int
  POINTS_PER_WORD : Int
  POINTS_PER_RIDDLE : Int
  PENALTY_PER_WRONG_WORD : Int
  POINTS_PENALTY_WRONG_KEY : Int
  MAX_WRONG_KEYS_PER_WORD : Int
  MAX_PLAYER_NAME_LENGTH : Nat
  LEADERBOARD_LIMIT : Nat
  deriving DecidableEq, Repr

/-- The constant configuration object of `src/constants/texts.js`. -/
def GAME_CONFIG : GameConfig :=
  { INITIAL_TIME := 30
    BONUS_TIME := 10
    MAX_TIME := 60
    POINTS_PER_WORD := 5
    POINTS_PER_RIDDLE := 20
    PENALTY_PER_WRONG_WORD := 3
    POINTS_PENALTY_WRONG_KEY := 3
    MAX_WRONG_KEYS_PER_WORD := 2
    MAX_PLAYER_NAME_LENGTH := 20
    LEADERBOARD_LIMIT := 10 }

/-- The mutable session state of `App.jsx` (the React `useState` cells that
carry game logic; presentation-only cells such as `pressedKey` and the modal
visibility flags are omitted).  `pendingAdvance` counts the scheduled
`setTimeout(() => moveToNextWord(false), 500)` callbacks not yet fired. -/
structure Session where
  gameState : GameState
  score : Int
  timeLeft : Int
  currentRiddleIndex : Nat
  currentWordIndex : Nat
  typedText : String
  wrongKeyCount : Int
  usedRiddleIndices : List Nat
  currentRound : Nat
  pendingAdvance : Nat
  deriving DecidableEq, Repr

/-- `Math.floor(Math.random() * n)` for a random draw `r`: any value in
`[0, n)` when `n > 0`, and `0` when `n = 0` (as in JavaScript). -/
def randIndex (r n : Nat) : Nat :=
  if n = 0 then 0 else r % n

/-- `currentWord = currentRiddle?.words[currentWordIndex]` from `App.jsx`. -/
def currentWordOpt (catalog : List RiddleSet) (s : Session) : Option String :=
  match catalog[s.currentRiddleIndex]? with
  | none => none
  | some rs => rs.words[s.currentWordIndex]?

/-- `endGame` from `App.jsx` (the high-score persistence talks to the
leaderboard collaborator and touches no session field). -/
def endGame (s : Session) : Session :=
  { s with gameState := GameState.gameOver }

/-- `moveToNextWord(wordCompleted)` from `App.jsx`. -/
def moveToNextWord (catalog : List RiddleSet) (wordCompleted : Bool)
    (s : Session) : Session :=
  match catalog[s.currentRiddleIndex]? with
  | none => s
  | some rs =>
    let s1 :=
      if wordCompleted then
        { s with score := s.score + GAME_CONFIG.POINTS_PER_WORD }
      else
        { s with score := max 0 (s.score - GAME_CONFIG.PENALTY_PER_WRONG_WORD) }
    if s.currentWordIndex + 1 < rs.words.length then
      { s1 with currentWordIndex := s.currentWordIndex + 1
                typedText := ""
                wrongKeyCount := 0 }
    else
      { s1 with gameState := GameState.riddle }

/-- `handleKeyPress(key)` from `App.jsx`. -/
def handleKeyPress (catalog : List RiddleSet) (key : String)
    (s : Session) : Session :=
  if s.gameState ≠ GameState.playing then s
  else
    match currentWordOpt catalog s with
    | none => s
    | some w =>
      if w = "" then s
      else if key = "" then s
      else if key = "BACKSPACE" then
        if s.typedText.length > 0 then
          let s1 := { s with typedText := s.typedText.dropRight 1 }
          if s.wrongKeyCount > 0 then
            { s1 with wrongKeyCount := max 0 (s.wrongKeyCount - 1) }
          else s1
        else s
      else
        match w.data[s.typedText.length]? with
        | none => s
        | some targetChar =>
          if key = String.singleton targetChar then
            let newTypedText := s.typedText ++ key
            let s1 := { s with typedText := newTypedText }
            if newTypedText.length = w.length then
              moveToNextWord catalog true s1
            else s1
          else
            let s1 := { s with
              score := max 0 (s.score - GAME_CONFIG.POINTS_PENALTY_WRONG_KEY)
              typedText := s.typedText ++ key
              wrongKeyCount := s.wrongKeyCount + 1 }
            if s.wrongKeyCount + 1 ≥ GAME_CONFIG.MAX_WRONG_KEYS_PER_WORD then
              { s1 with pendingAdvance := s.pendingAdvance + 1 }
            else s1

/-- The indices of the riddle sets not yet used, as computed in
`handleRiddleAnswer` (`riddles.map((_, index) => index).filter(...)`). -/
def availableIndices (catalog : List RiddleSet) (used : List Nat) : List Nat :=
  (List.range catalog.length).filter (fun i => ¬ used.contains i)

/-- `handleRiddleAnswer(isCorrect)` from `App.jsx`; `r` stands for the
`Math.random()` draw selecting the next riddle set. -/
def handleRiddleAnswer (catalog : List RiddleSet) (isCorrect : Bool) (r : Nat)
    (s : Session) : Session :=
  if isCorrect then
    let s1 := { s with score := s.score + GAME_CONFIG.POINTS_PER_RIDDLE }
    if s1.usedRiddleIndices.length < catalog.length then
      let avail := availableIndices catalog s1.usedRiddleIndices
      if avail.length > 0 then
        let nextRiddleIndex := avail.getD (randIndex r avail.length) 0
        { s1 with usedRiddleIndices := s1.usedRiddleIndices ++ [nextRiddleIndex]
                  currentRiddleIndex := nextRiddleIndex
                  currentWordIndex := 0
                  typedText := ""
                  wrongKeyCount := 0
                  currentRound := s1.currentRound + 1
                  gameState := GameState.playing
                  timeLeft := min (s1.timeLeft + 10) 60 }
      else endGame s1
    else endGame s1
  else endGame s

/-- One clock tick: the `setTimeout` decrement of the timer `useEffect`,
followed by the effect branch calling `endGame()` when
`timeLeft === 0 && gameState === PLAYING`. -/
def tick (s : Session) : Session :=
  if s.gameState = GameState.playing then
    if s.timeLeft > 0 then
      let s1 := { s with timeLeft := s.timeLeft - 1 }
      if s1.timeLeft = 0 then endGame s1 else s1
    else endGame s
  else s

/-- Firing of one scheduled `moveToNextWord(false)` timeout. -/
def fireTimeout (catalog : List RiddleSet) (s : Session) : Session :=
  if s.pendingAdvance > 0 then
    moveToNextWord catalog false { s with pendingAdvance := s.pendingAdvance - 1 }
  else s

/-- `initializeGame` from `App.jsx`: a fresh session with a uniformly random
first riddle set. -/
def initializeGame (catalog : List RiddleSet) (selectedTime : Int)
    (r : Nat) : Session :=
  { gameState := GameState.playing
    score := 0
    timeLeft := selectedTime
    currentRiddleIndex := randIndex r catalog.length
    currentWordIndex := 0
    typedText := ""
    wrongKeyCount := 0
    usedRiddleIndices := [randIndex r catalog.length]
    currentRound := 1
    pendingAdvance := 0 }

/-- The external events the engine consumes. -/
inductive Event where
  | key (k : String)
  | tick
  | answer (isCorrect : Bool) (r : Nat)
  | timeout
  deriving DecidableEq, Repr

/-- Dispatch one event to the corresponding engine function. -/
def step (catalog : List RiddleSet) (e : Event) (s : Session) : Session :=
  match e with
  | Event.key k => handleKeyPress catalog k s
  | Event.tick => tick s
  | Event.answer c r => handleRiddleAnswer catalog c r s
  | Event.timeout => fireTimeout catalog s

/-- Process a sequence of events in order. -/
def run (catalog : List RiddleSet) (evs : List Event) (s : Session) : Session :=
  evs.foldl (fun s e => step catalog e s) s

/-- Keystrokes for typing a list of characters. -/
def keysFor (cs : List Char) : List Event :=
  cs.map (fun c => Event.key (String.singleton c))

/-- Ticks and keystrokes, the two event kinds the terminal-state ordering
guarantee is about. -/
def isTickOrKey : Event → Bool
  | Event.key _ => true
  | Event.tick => true
  | _ => false

/-! ### Concrete fixtures used by witnesses and counterexamples -/

/-- The one-set catalog of the spec's example scenario. -/
def demoCatalog : List RiddleSet :=
  [{ words := ["CAT", "DOG"], options := ["A", "B"], correctAnswer := 1 }]

/-- Fresh demo session. -/
def demoInit : Session := initializeGame demoCatalog 30 0

/-- Demo session after typing CAT correctly: score 5, current word DOG. -/
def demoAfterCAT : Session := run demoCatalog (keysFor "CAT".data) demoInit

/-- Demo session after typing CAT and DOG correctly: score 10, in RIDDLE. -/
def demoAfterCATDOG : Session :=
  run demoCatalog (keysFor "CATDOG".data) demoInit

/-- A four-word catalog (words observed to come in sets of four). -/
def fourWordCatalog : List RiddleSet :=
  [{ words := ["CAT", "DOG", "FOX", "OWL"],
     options := ["A", "B", "C", "D"], correctAnswer := 0 }]

/-- Session that typed CAT, DOG, FOX correctly (score 15) and then hit the
wrong-key cap on OWL with two wrong X keystrokes: score 9, one pending
delayed word-advance. -/
def delayWindowState : Session :=
  run fourWordCatalog
    (keysFor "CATDOGFOX".data ++ [Event.key "X", Event.key "X"])
    (initializeGame fourWordCatalog 30 0)

/-- A catalog whose first word has a single character. -/
def oneCharCatalog : List RiddleSet :=
  [{ words := ["A", "B"], options := ["A", "B"], correctAnswer := 0 }]

/-- A session sitting on the one-character word A with score 9. -/
def oneCharState : Session :=
  { gameState := GameState.playing, score := 9, timeLeft := 20,
    currentRiddleIndex := 0, currentWordIndex := 0, typedText := "",
    wrongKeyCount := 0, usedRiddleIndices := [0], currentRound := 1,
    pendingAdvance := 0 }

/-- A two-set catalog, for exercising riddle selection. -/
def twoSetCatalog : List RiddleSet :=
  [{ words := ["CAT", "DOG"], options := ["A", "B"], correctAnswer := 1 },
   { words := ["FOX", "OWL"], options := ["C", "D"], correctAnswer := 0 }]

/-- A session in RIDDLE state with one of the two catalog sets still
unused. -/
def twoSetRiddleState : Session :=
  run twoSetCatalog (keysFor "CATDOG".data) (initializeGame twoSetCatalog 30 0)

/-- A game-over session used to exercise the terminal-state guarantees. -/
def gameOverState : Session :=
  { gameState := GameState.gameOver, score := 7, timeLeft := 0,
    currentRiddleIndex := 0, currentWordIndex := 1, typedText := "DO",
    wrongKeyCount := 1, usedRiddleIndices := [0], currentRound := 1,
    pendingAdvance := 0 }

/-! ### Basic lemmas about the embedding -/

theorem run_nil (catalog : List RiddleSet) (s : Session) :
    run catalog [] s = s := rfl

theorem run_cons (catalog : List RiddleSet) (e : Event) (evs : List Event)
    (s : Session) :
    run catalog (e :: evs) s = run catalog evs (step catalog e s) := rfl

theorem string_eq_empty_iff (w : String) : w = "" ↔ w.data = [] := by
  constructor
  · intro h
    rw [h]
  · intro h
    apply String.ext
    simpa using h

theorem singleton_eq_singleton_iff (a b : Char) :
    String.singleton a = String.singleton b ↔ a = b := by
  constructor
  · intro h
    have h2 := congrArg String.data h
    simpa [String.singleton] using h2
  · intro h
    rw [h]

theorem singleton_ne_empty (c : Char) : String.singleton c ≠ "" := by
  intro h
  have h2 := congrArg String.data h
  simp [String.singleton] at h2

theorem singleton_ne_backspace (c : Char) :
    String.singleton c ≠ "BACKSPACE" := by
  intro h
  have h2 := congrArg (fun t : String => t.data.length) h
  simp [String.singleton] at h2

theorem currentWordOpt_eq (catalog : List RiddleSet) (s : Session)
    (rs : RiddleSet) (w : String)
    (hrs : catalog[s.currentRiddleIndex]? = some rs)
    (hw : rs.words[s.currentWordIndex]? = some w) :
    currentWordOpt catalog s = some w := by
  unfold currentWordOpt
  rw [hrs]
  exact hw

/-! ### Preservation lemmas -/

theorem moveToNextWord_score_nonneg (catalog : List RiddleSet) (b : Bool)
    (s : Session) (h : 0 ≤ s.score) :
    0 ≤ (moveToNextWord catalog b s).score := by
  unfold moveToNextWord
  split
  · exact h
  · dsimp only
    split <;> split <;> simp [GAME_CONFIG] <;> omega

theorem handleKeyPress_score_nonneg (catalog : List RiddleSet) (k : String)
    (s : Session) (h : 0 ≤ s.score) :
    0 ≤ (handleKeyPress catalog k s).score := by
  unfold handleKeyPress
  split
  · exact h
  split
  · exact h
  split
  · exact h
  split
  · exact h
  split
  · split
    · dsimp only
      split
      · exact h
      · exact h
    · exact h
  split
  · exact h
  split
  · dsimp only
    split
    · exact moveToNextWord_score_nonneg _ _ _ h
    · exact h
  · dsimp only
    split
    · exact le_max_left 0 _
    · exact le_max_left 0 _

theorem handleRiddleAnswer_score_nonneg (catalog : List RiddleSet)
    (c : Bool) (r : Nat) (s : Session) (h : 0 ≤ s.score) :
    0 ≤ (handleRiddleAnswer catalog c r s).score := by
  unfold handleRiddleAnswer endGame
  split
  · dsimp only
    split
    · split <;> (simp [GAME_CONFIG]; omega)
    · simp [GAME_CONFIG]
      omega
  · exact h

theorem tick_score_eq (s : Session) : (tick s).score = s.score := by
  unfold tick endGame
  split
  · split
    · dsimp only
      split <;> rfl
    · rfl
  · rfl

theorem fireTimeout_score_nonneg (catalog : List RiddleSet) (s : Session)
    (h : 0 ≤ s.score) : 0 ≤ (fireTimeout catalog s).score := by
  unfold fireTimeout
  split
  · exact moveToNextWord_score_nonneg _ _ _ h
  · exact h

theorem step_score_nonneg (catalog : List RiddleSet) (e : Event)
    (s : Session) (h : 0 ≤ s.score) : 0 ≤ (step catalog e s).score := by
  cases e with
  | key k => exact handleKeyPress_score_nonneg catalog k s h
  | tick => rw [step, tick_score_eq]; exact h
  | answer c r => exact handleRiddleAnswer_score_nonneg catalog c r s h
  | timeout => exact fireTimeout_score_nonneg catalog s h

theorem run_preserve (catalog : List RiddleSet) (P : Session → Prop)
    (hP : ∀ e s, P s → P (step catalog e s)) :
    ∀ (evs : List Event) (s : Session), P s → P (run catalog evs s) := by
  intro evs
  induction evs with
  | nil => intro s h; exact h
  | cons e evs ih =>
    intro s h
    rw [run_cons]
    exact ih _ (hP e s h)

/-! ### Claim theorems -/

/-- C1: starting from a fresh session, the score is a non-negative integer
after every sequence of engine events — negative deltas are applied through
a clamp at zero and positive deltas only add. -/
theorem c1_score_never_negative (catalog : List RiddleSet)
    (selectedTime : Int) (r : Nat) (evs : List Event) :
    0 ≤ (run catalog evs (initializeGame catalog selectedTime r)).score := by
  refine run_preserve catalog (fun s => 0 ≤ s.score) ?_ evs _ ?_
  · intro e s h
    exact step_score_nonneg catalog e s h
  · simp [initializeGame]

theorem handleKeyPress_not_playing (catalog : List RiddleSet) (k : String)
    (s : Session) (h : s.gameState ≠ GameState.playing) :
    handleKeyPress catalog k s = s := by
  unfold handleKeyPress
  rw [if_pos h]

theorem tick_not_playing (s : Session)
    (h : s.gameState ≠ GameState.playing) : tick s = s := by
  unfold tick
  rw [if_neg h]

theorem run_tick_key_gameOver (catalog : List RiddleSet) :
    ∀ (evs : List Event) (s : Session),
      s.gameState = GameState.gameOver →
      (∀ e ∈ evs, isTickOrKey e = true) →
      run catalog evs s = s := by
  intro evs
  induction evs with
  | nil => intro s _ _; rfl
  | cons e evs ih =>
    intro s hgo hevs
    have he : isTickOrKey e = true := hevs e (List.mem_cons_self e evs)
    have hstep : step catalog e s = s := by
      cases e with
      | key k =>
        exact handleKeyPress_not_playing catalog k s (by rw [hgo]; decide)
      | tick => exact tick_not_playing s (by rw [hgo]; decide)
      | answer c r => simp [isTickOrKey] at he
      | timeout => simp [isTickOrKey] at he
    rw [run_cons, hstep]
    exact ih s hgo (fun e2 he2 => hevs e2 (List.mem_cons_of_mem e he2))

/-- C7: a clock tick that exhausts `timeRemaining` while PLAYING moves the
session to GAME_OVER, and a GAME_OVER session is left untouched by any
further sequence of ticks and keystrokes. -/
theorem c7_time_out_terminal (catalog : List RiddleSet) (s : Session)
    (evs : List Event) (hevs : ∀ e ∈ evs, isTickOrKey e = true) :
    (s.gameState = GameState.playing → s.timeLeft ≤ 1 →
      (step catalog Event.tick s).gameState = GameState.gameOver) ∧
    (s.gameState = GameState.gameOver → run catalog evs s = s) := by
  constructor
  · intro h1 h2
    show (tick s).gameState = GameState.gameOver
    unfold tick
    rw [if_pos h1]
    split
    · dsimp only
      rw [if_pos (by omega)]
      rfl
    · rfl
  · intro hgo
    exact run_tick_key_gameOver catalog evs s hgo hevs

/-- C7 witness: with time 1 left, a tick ends the demo game, and the
resulting GAME_OVER session absorbs a further tick and keystroke. -/
theorem c7_time_out_terminal_witness :
    (step demoCatalog Event.tick { demoInit with timeLeft := 1 }).gameState =
      GameState.gameOver ∧
    run demoCatalog [Event.tick, Event.key "A"] gameOverState =
      gameOverState := by
  constructor
  · exact (c7_time_out_terminal demoCatalog { demoInit with timeLeft := 1 }
      [] (by intro e he; cases he)).1 (by decide) (by decide)
  · exact (c7_time_out_terminal demoCatalog gameOverState
      [Event.tick, Event.key "A"] (by decide)).2 (by decide)

theorem string_length_pos (w : String) : 0 < w.length ↔ w ≠ "" := by
  rw [Ne, string_eq_empty_iff]
  exact List.length_pos

/-- C8: in PLAYING, backspace on a non-empty buffer drops exactly the last
buffer character and decrements `wrongKeyCount` by one exactly when it was
positive; it never becomes negative, and backspace on an empty buffer
changes nothing. -/
theorem c8_backspace (catalog : List RiddleSet) (s : Session) (w : String)
    (hstate : s.gameState = GameState.playing)
    (hword : currentWordOpt catalog s = some w)
    (hne : w ≠ "") :
    (s.typedText ≠ "" →
      handleKeyPress catalog "BACKSPACE" s =
        { s with typedText := s.typedText.dropRight 1
                 wrongKeyCount := if 0 < s.wrongKeyCount then
                   s.wrongKeyCount - 1 else s.wrongKeyCount }) ∧
    (s.typedText = "" → handleKeyPress catalog "BACKSPACE" s = s) ∧
    (0 ≤ s.wrongKeyCount →
      0 ≤ (handleKeyPress catalog "BACKSPACE" s).wrongKeyCount) := by
  have hguard : ¬ (s.gameState ≠ GameState.playing) := by
    rw [hstate]; decide
  have hred : handleKeyPress catalog "BACKSPACE" s =
      if 0 < s.typedText.length then
        (if 0 < s.wrongKeyCount then
          { s with typedText := s.typedText.dropRight 1
                   wrongKeyCount := max 0 (s.wrongKeyCount - 1) }
        else { s with typedText := s.typedText.dropRight 1 })
      else s := by
    unfold handleKeyPress
    rw [if_neg hguard, hword]
    dsimp only
    rw [if_neg hne, if_neg (by decide : ¬ ("BACKSPACE" : String) = ""),
      if_pos rfl]
  refine ⟨?_, ?_, ?_⟩
  · intro hnz
    rw [hred, if_pos ((string_length_pos s.typedText).mpr hnz)]
    by_cases hpos : 0 < s.wrongKeyCount
    · rw [if_pos hpos, if_pos hpos]
      have hmax : max 0 (s.wrongKeyCount - 1) = s.wrongKeyCount - 1 := by
        omega
      rw [hmax]
    · rw [if_neg hpos, if_neg hpos]
  · intro hz
    rw [hred, hz]
    rfl
  · intro h0
    rw [hred]
    split
    · split
      · dsimp only
        exact le_max_left 0 _
      · exact h0
    · exact h0

/-- C8 witness: backspacing the wrongly typed X on top of DOG removes it and
brings `wrongKeyCount` from 1 back to 0. -/
theorem c8_backspace_witness :
    ((step demoCatalog (Event.key "X") demoAfterCAT).typedText ≠ "") ∧
    handleKeyPress demoCatalog "BACKSPACE"
        (step demoCatalog (Event.key "X") demoAfterCAT) =
      { step demoCatalog (Event.key "X") demoAfterCAT with
        typedText :=
          (step demoCatalog (Event.key "X") demoAfterCAT).typedText.dropRight 1
        wrongKeyCount :=
          if 0 < (step demoCatalog (Event.key "X") demoAfterCAT).wrongKeyCount
          then (step demoCatalog (Event.key "X") demoAfterCAT).wrongKeyCount - 1
          else (step demoCatalog (Event.key "X") demoAfterCAT).wrongKeyCount } := by
  constructor
  · decide
  · exact (c8_backspace demoCatalog
      (step demoCatalog (Event.key "X") demoAfterCAT) "DOG"
      (by decide) (by decide) (by decide)).1 (by decide)

theorem mem_availableIndices (catalog : List RiddleSet) (used : List Nat)
    (i : Nat) :
    i ∈ availableIndices catalog used ↔ i < catalog.length ∧ i ∉ used := by
  unfold availableIndices
  simp [List.mem_filter]

theorem getD_randIndex_mem (l : List Nat) (r : Nat) (h : l ≠ []) :
    l.getD (randIndex r l.length) 0 ∈ l := by
  have hpos : 0 < l.length := List.length_pos.mpr h
  have hlt : randIndex r l.length < l.length := by
    unfold randIndex
    rw [if_neg (by omega)]
    exact Nat.mod_lt _ hpos
  rw [List.getD_eq_getElem l 0 hlt]
  exact List.getElem_mem hlt

/-- C5: in RIDDLE with an unused riddle set remaining, a correct answer
awards the riddle points, adds the capped time bonus, bumps the round,
resets the word progress, draws the new set from the unused indices and
returns to PLAYING. -/
theorem c5_correct_riddle_advances (catalog : List RiddleSet) (s : Session)
    (r : Nat) (nextIdx : Nat)
    (hstate : s.gameState = GameState.riddle)
    (hlen : s.usedRiddleIndices.length < catalog.length)
    (havail : availableIndices catalog s.usedRiddleIndices ≠ [])
    (hnext : nextIdx = (availableIndices catalog s.usedRiddleIndices).getD
      (randIndex r (availableIndices catalog s.usedRiddleIndices).length) 0) :
    handleRiddleAnswer catalog true r s =
      { s with
        score := s.score + GAME_CONFIG.POINTS_PER_RIDDLE
        timeLeft := min (s.timeLeft + 10) 60
        currentRound := s.currentRound + 1
        currentWordIndex := 0
        typedText := ""
        wrongKeyCount := 0
        currentRiddleIndex := nextIdx
        usedRiddleIndices := s.usedRiddleIndices ++ [nextIdx]
        gameState := GameState.playing } ∧
    nextIdx ∉ s.usedRiddleIndices ∧ nextIdx < catalog.length := by
  have hmem : nextIdx ∈ availableIndices catalog s.usedRiddleIndices := by
    rw [hnext]
    exact getD_randIndex_mem _ r havail
  have hspec := (mem_availableIndices catalog s.usedRiddleIndices
    nextIdx).mp hmem
  refine ⟨?_, hspec.2, hspec.1⟩
  unfold handleRiddleAnswer
  dsimp only
  rw [if_pos hlen,
    if_pos (List.length_pos.mpr havail), hnext]
  rfl

/-- C5 witness: in the two-set catalog with set 0 used, a correct answer
draws set 1, awards 20 points, caps the clock bonus and resumes PLAYING. -/
theorem c5_correct_riddle_advances_witness :
    (twoSetRiddleState.gameState = GameState.riddle ∧
      twoSetRiddleState.usedRiddleIndices.length < twoSetCatalog.length ∧
      availableIndices twoSetCatalog twoSetRiddleState.usedRiddleIndices ≠ []) ∧
    (handleRiddleAnswer twoSetCatalog true 0 twoSetRiddleState =
      { twoSetRiddleState with
        score := twoSetRiddleState.score + GAME_CONFIG.POINTS_PER_RIDDLE
        timeLeft := min (twoSetRiddleState.timeLeft + 10) 60
        currentRound := twoSetRiddleState.currentRound + 1
        currentWordIndex := 0
        typedText := ""
        wrongKeyCount := 0
        currentRiddleIndex := 1
        usedRiddleIndices := twoSetRiddleState.usedRiddleIndices ++ [1]
        gameState := GameState.playing } ∧
    1 ∉ twoSetRiddleState.usedRiddleIndices ∧ 1 < twoSetCatalog.length) := by
  constructor
  · exact ⟨by decide, by decide, by decide⟩
  · exact c5_correct_riddle_advances twoSetCatalog twoSetRiddleState 0 1
      (by decide) (by decide) (by decide) (by decide)

/-- C6: in RIDDLE with every catalog set already used, a correct answer
still adds the riddle points and then moves straight to GAME_OVER. -/
theorem c6_correct_riddle_exhausted (catalog : List RiddleSet) (s : Session)
    (r : Nat)
    (hstate : s.gameState = GameState.riddle)
    (hall : ∀ i, i < catalog.length → i ∈ s.usedRiddleIndices) :
    handleRiddleAnswer catalog true r s =
      { s with score := s.score + GAME_CONFIG.POINTS_PER_RIDDLE
               gameState := GameState.gameOver } := by
  unfold handleRiddleAnswer endGame
  dsimp only
  by_cases hlen : s.usedRiddleIndices.length < catalog.length
  · rw [if_pos hlen]
    have hav : availableIndices catalog s.usedRiddleIndices = [] := by
      unfold availableIndices
      rw [List.filter_eq_nil_iff]
      intro a ha
      simp only [List.mem_range] at ha
      simp [hall a ha]
    rw [hav]
    rfl
  · rw [if_neg hlen]
    rfl

/-- C6 witness: the spec's one-set scenario.  After typing CAT and DOG the
session is in RIDDLE with score 10 and the catalog exhausted; the correct
answer yields final score 30 = 10 + 20 and GAME_OVER. -/
theorem c6_correct_riddle_exhausted_witness :
    (demoAfterCATDOG.gameState = GameState.riddle ∧
      demoAfterCATDOG.score = 10 ∧
      (∀ i, i < demoCatalog.length → i ∈ demoAfterCATDOG.usedRiddleIndices)) ∧
    (handleRiddleAnswer demoCatalog true 0 demoAfterCATDOG).score = 30 ∧
    (handleRiddleAnswer demoCatalog true 0 demoAfterCATDOG).gameState =
      GameState.gameOver := by
  have h := c6_correct_riddle_exhausted demoCatalog demoAfterCATDOG 0
    (by decide) (by decide)
  refine ⟨⟨by decide, by decide, by decide⟩, ?_, ?_⟩ <;> rw [h] <;> decide

theorem moveToNextWord_used (catalog : List RiddleSet) (b : Bool)
    (s : Session) :
    (moveToNextWord catalog b s).usedRiddleIndices = s.usedRiddleIndices := by
  unfold moveToNextWord
  split
  · rfl
  · dsimp only
    split
    · split <;> rfl
    · split <;> rfl

theorem handleKeyPress_used (catalog : List RiddleSet) (k : String)
    (s : Session) :
    (handleKeyPress catalog k s).usedRiddleIndices = s.usedRiddleIndices := by
  unfold handleKeyPress
  split
  · rfl
  split
  · rfl
  split
  · rfl
  split
  · rfl
  split
  · split
    · dsimp only
      split
      · rfl
      · rfl
    · rfl
  split
  · rfl
  split
  · dsimp only
    split
    · rw [moveToNextWord_used]
    · rfl
  · dsimp only
    split
    · rfl
    · rfl

theorem tick_used (s : Session) :
    (tick s).usedRiddleIndices = s.usedRiddleIndices := by
  unfold tick endGame
  split
  · split
    · dsimp only
      split <;> rfl
    · rfl
  · rfl

theorem fireTimeout_used (catalog : List RiddleSet) (s : Session) :
    (fireTimeout catalog s).usedRiddleIndices = s.usedRiddleIndices := by
  unfold fireTimeout
  split
  · rw [moveToNextWord_used]
  · rfl

theorem step_used_append (catalog : List RiddleSet) (e : Event)
    (s : Session) :
    ∃ tail, (step catalog e s).usedRiddleIndices =
      s.usedRiddleIndices ++ tail := by
  cases e with
  | key k =>
    exact ⟨[], by rw [List.append_nil]; exact handleKeyPress_used catalog k s⟩
  | tick => exact ⟨[], by rw [List.append_nil]; exact tick_used s⟩
  | timeout =>
    exact ⟨[], by rw [List.append_nil]; exact fireTimeout_used catalog s⟩
  | answer c r =>
    show ∃ tail, (handleRiddleAnswer catalog c r s).usedRiddleIndices =
      s.usedRiddleIndices ++ tail
    unfold handleRiddleAnswer endGame
    cases c with
    | false => exact ⟨[], by simp⟩
    | true =>
      dsimp only
      rw [if_pos rfl]
      split
      · split
        · exact ⟨_, rfl⟩
        · exact ⟨[], by simp⟩
      · exact ⟨[], by simp⟩

theorem handleRiddleAnswer_used_inv (catalog : List RiddleSet) (c : Bool)
    (r : Nat) (s : Session)
    (h1 : s.usedRiddleIndices.Nodup)
    (h2 : s.usedRiddleIndices.length ≤ catalog.length) :
    (handleRiddleAnswer catalog c r s).usedRiddleIndices.Nodup ∧
    (handleRiddleAnswer catalog c r s).usedRiddleIndices.length ≤
      catalog.length := by
  unfold handleRiddleAnswer endGame
  cases c with
  | false => exact ⟨h1, h2⟩
  | true =>
    rw [if_pos rfl]
    dsimp only
    split
    · next hlen =>
      split
      · next hpos =>
        dsimp only
        have hmem := getD_randIndex_mem
          (availableIndices catalog s.usedRiddleIndices) r
          (List.length_pos.mp hpos)
        have hspec := (mem_availableIndices catalog s.usedRiddleIndices
          _).mp hmem
        constructor
        · rw [List.nodup_append]
          exact ⟨h1, List.nodup_singleton _,
            List.disjoint_singleton.mpr hspec.2⟩
        · rw [List.length_append]
          simpa using hlen
      · exact ⟨h1, h2⟩
    · exact ⟨h1, h2⟩

theorem step_used_inv (catalog : List RiddleSet) (e : Event) (s : Session)
    (h : s.usedRiddleIndices.Nodup ∧
      s.usedRiddleIndices.length ≤ catalog.length) :
    (step catalog e s).usedRiddleIndices.Nodup ∧
    (step catalog e s).usedRiddleIndices.length ≤ catalog.length := by
  cases e with
  | key k => rw [step, handleKeyPress_used]; exact h
  | tick => rw [step, tick_used]; exact h
  | timeout => rw [step, fireTimeout_used]; exact h
  | answer c r => exact handleRiddleAnswer_used_inv catalog c r s h.1 h.2

/-- C9: across a session, `usedRiddleIndices` stays duplicate-free, never
exceeds the catalog size, and only ever grows (each event appends to it). -/
theorem c9_used_riddle_ids (catalog : List RiddleSet) (selectedTime : Int)
    (r : Nat) (evs : List Event) (hne : catalog ≠ []) :
    (run catalog evs (initializeGame catalog selectedTime r)).usedRiddleIndices.Nodup ∧
    (run catalog evs (initializeGame catalog selectedTime r)).usedRiddleIndices.length ≤
      catalog.length ∧
    ∀ e, ∃ tail,
      (step catalog e
        (run catalog evs (initializeGame catalog selectedTime r))).usedRiddleIndices =
      (run catalog evs (initializeGame catalog selectedTime r)).usedRiddleIndices ++
        tail := by
  have hinit : (initializeGame catalog selectedTime r).usedRiddleIndices.Nodup ∧
      (initializeGame catalog selectedTime r).usedRiddleIndices.length ≤
        catalog.length := by
    constructor
    · exact List.nodup_singleton _
    · have := List.length_pos.mpr hne
      simp [initializeGame]
      omega
  have hinv := run_preserve catalog
    (fun s => s.usedRiddleIndices.Nodup ∧
      s.usedRiddleIndices.length ≤ catalog.length)
    (fun e s h => step_used_inv catalog e s h) evs _ hinit
  exact ⟨hinv.1, hinv.2, fun e => step_used_append catalog e _⟩

/-- C9 witness: after the demo run ending in a correct answer on the two-set
catalog, the used list is duplicate-free, within the catalog size, and a
further event only appends to it. -/
theorem c9_used_riddle_ids_witness :
    (run twoSetCatalog (keysFor "CATDOG".data ++ [Event.answer true 0])
      (initializeGame twoSetCatalog 30 0)).usedRiddleIndices.Nodup ∧
    (run twoSetCatalog (keysFor "CATDOG".data ++ [Event.answer true 0])
      (initializeGame twoSetCatalog 30 0)).usedRiddleIndices.length ≤
      twoSetCatalog.length ∧
    ∀ e, ∃ tail,
      (step twoSetCatalog e
        (run twoSetCatalog (keysFor "CATDOG".data ++ [Event.answer true 0])
          (initializeGame twoSetCatalog 30 0))).usedRiddleIndices =
      (run twoSetCatalog (keysFor "CATDOG".data ++ [Event.answer true 0])
        (initializeGame twoSetCatalog 30 0)).usedRiddleIndices ++ tail := by
  exact c9_used_riddle_ids twoSetCatalog 30 0
    (keysFor "CATDOG".data ++ [Event.answer true 0]) (by decide)

theorem space_eq_singleton_iff (c : Char) :
    (" " : String) = String.singleton c ↔ c = ' ' := by
  rw [show (" " : String) = String.singleton ' ' from by decide,
    singleton_eq_singleton_iff]
  exact eq_comm

theorem ne_empty_of_data_getElem (w : String) (i : Nat) (c : Char)
    (h : w.data[i]? = some c) : w ≠ "" := by
  intro hcontra
  rw [string_eq_empty_iff] at hcontra
  rw [hcontra] at h
  simp at h

theorem handleKeyPress_wrong (catalog : List RiddleSet) (s : Session)
    (w : String) (targetChar : Char) (key : String)
    (hstate : s.gameState = GameState.playing)
    (hword : currentWordOpt catalog s = some w)
    (hne : w ≠ "")
    (hk0 : key ≠ "")
    (hkb : key ≠ "BACKSPACE")
    (ht : w.data[s.typedText.length]? = some targetChar)
    (hmiss : key ≠ String.singleton targetChar) :
    handleKeyPress catalog key s =
      if s.wrongKeyCount + 1 ≥ GAME_CONFIG.MAX_WRONG_KEYS_PER_WORD then
        { s with
          score := max 0 (s.score - GAME_CONFIG.POINTS_PENALTY_WRONG_KEY)
          typedText := s.typedText ++ key
          wrongKeyCount := s.wrongKeyCount + 1
          pendingAdvance := s.pendingAdvance + 1 }
      else
        { s with
          score := max 0 (s.score - GAME_CONFIG.POINTS_PENALTY_WRONG_KEY)
          typedText := s.typedText ++ key
          wrongKeyCount := s.wrongKeyCount + 1 } := by
  have hguard : ¬ (s.gameState ≠ GameState.playing) := by rw [hstate]; decide
  unfold handleKeyPress
  rw [if_neg hguard, hword]
  dsimp only
  rw [if_neg hne, if_neg hk0, if_neg hkb, ht]
  dsimp only
  rw [if_neg hmiss]

theorem handleKeyPress_correct (catalog : List RiddleSet) (s : Session)
    (w : String) (targetChar : Char) (key : String)
    (hstate : s.gameState = GameState.playing)
    (hword : currentWordOpt catalog s = some w)
    (hne : w ≠ "")
    (hk0 : key ≠ "")
    (hkb : key ≠ "BACKSPACE")
    (ht : w.data[s.typedText.length]? = some targetChar)
    (hmatch : key = String.singleton targetChar) :
    handleKeyPress catalog key s =
      if (s.typedText ++ key).length = w.length then
        moveToNextWord catalog true { s with typedText := s.typedText ++ key }
      else { s with typedText := s.typedText ++ key } := by
  have hguard : ¬ (s.gameState ≠ GameState.playing) := by rw [hstate]; decide
  unfold handleKeyPress
  rw [if_neg hguard, hword]
  dsimp only
  rw [if_neg hne, if_neg hk0, if_neg hkb, ht]
  dsimp only
  rw [if_pos hmatch]

theorem moveToNextWord_true_facts (catalog : List RiddleSet)
    (rs : RiddleSet) (s : Session)
    (hrs : catalog[s.currentRiddleIndex]? = some rs) :
    (moveToNextWord catalog true s).score =
      s.score + GAME_CONFIG.POINTS_PER_WORD ∧
    (s.currentWordIndex + 1 < rs.words.length →
      (moveToNextWord catalog true s).gameState = s.gameState ∧
      (moveToNextWord catalog true s).currentWordIndex =
        s.currentWordIndex + 1 ∧
      (moveToNextWord catalog true s).typedText = "" ∧
      (moveToNextWord catalog true s).wrongKeyCount = 0) ∧
    (¬ s.currentWordIndex + 1 < rs.words.length →
      (moveToNextWord catalog true s).gameState = GameState.riddle) := by
  unfold moveToNextWord
  rw [hrs]
  dsimp only
  rw [if_pos rfl]
  by_cases hlt : s.currentWordIndex + 1 < rs.words.length
  · rw [if_pos hlt]
    exact ⟨rfl, fun _ => ⟨rfl, rfl, rfl, rfl⟩, fun h => absurd hlt h⟩
  · rw [if_neg hlt]
    exact ⟨rfl, fun h => absurd h hlt, fun _ => rfl⟩

theorem moveToNextWord_false_facts (catalog : List RiddleSet)
    (rs : RiddleSet) (s : Session)
    (hrs : catalog[s.currentRiddleIndex]? = some rs) :
    (moveToNextWord catalog false s).score =
      max 0 (s.score - GAME_CONFIG.PENALTY_PER_WRONG_WORD) ∧
    (s.currentWordIndex + 1 < rs.words.length →
      (moveToNextWord catalog false s).gameState = s.gameState ∧
      (moveToNextWord catalog false s).currentWordIndex =
        s.currentWordIndex + 1 ∧
      (moveToNextWord catalog false s).typedText = "" ∧
      (moveToNextWord catalog false s).wrongKeyCount = 0) ∧
    (¬ s.currentWordIndex + 1 < rs.words.length →
      (moveToNextWord catalog false s).gameState = GameState.riddle) := by
  unfold moveToNextWord
  rw [hrs]
  dsimp only
  rw [if_neg (by decide : ¬ (false = true))]
  by_cases hlt : s.currentWordIndex + 1 < rs.words.length
  · rw [if_pos hlt]
    exact ⟨rfl, fun _ => ⟨rfl, rfl, rfl, rfl⟩, fun h => absurd hlt h⟩
  · rw [if_neg hlt]
    exact ⟨rfl, fun h => absurd h hlt, fun _ => rfl⟩

/-- C2 counterexample: a space submitted while PLAYING is not ignored — it
changes score, typedBuffer and wrongKeyCount (here on the word DOG with
score 5 the space costs 3 points and lands in the buffer). -/
theorem c2_counterexample_space_processed :
    demoAfterCAT.gameState = GameState.playing ∧
    (step demoCatalog (Event.key " ") demoAfterCAT).score ≠
      demoAfterCAT.score ∧
    (step demoCatalog (Event.key " ") demoAfterCAT).typedText ≠
      demoAfterCAT.typedText ∧
    (step demoCatalog (Event.key " ") demoAfterCAT).wrongKeyCount ≠
      demoAfterCAT.wrongKeyCount := by
  decide

/-- C2 amended: key events outside PLAYING are ignored with no state
change; but a non-letter character (such as space) delivered while PLAYING
is not filtered by the engine — it is processed as an ordinary mismatching
keystroke (penalty, buffer append, wrong-key increment). -/
theorem c2_amended_invalid_input (catalog : List RiddleSet) (s : Session)
    (w : String) (targetChar : Char)
    (hword : currentWordOpt catalog s = some w)
    (hne : w ≠ "")
    (ht : w.data[s.typedText.length]? = some targetChar)
    (hsp : targetChar ≠ ' ') :
    (∀ (k : String) (s2 : Session), s2.gameState ≠ GameState.playing →
      step catalog (Event.key k) s2 = s2) ∧
    (s.gameState = GameState.playing →
      step catalog (Event.key " ") s =
        if s.wrongKeyCount + 1 ≥ GAME_CONFIG.MAX_WRONG_KEYS_PER_WORD then
          { s with
            score := max 0 (s.score - GAME_CONFIG.POINTS_PENALTY_WRONG_KEY)
            typedText := s.typedText ++ " "
            wrongKeyCount := s.wrongKeyCount + 1
            pendingAdvance := s.pendingAdvance + 1 }
        else
          { s with
            score := max 0 (s.score - GAME_CONFIG.POINTS_PENALTY_WRONG_KEY)
            typedText := s.typedText ++ " "
            wrongKeyCount := s.wrongKeyCount + 1 }) := by
  constructor
  · intro k s2 h
    exact handleKeyPress_not_playing catalog k s2 h
  · intro hstate
    refine handleKeyPress_wrong catalog s w targetChar " " hstate hword hne
      (by decide) (by decide) ht ?_
    intro h
    exact hsp ((space_eq_singleton_iff targetChar).mp h)

/-- C2 witness: a keystroke in GAME_OVER is a no-op, and a space typed on
the word DOG is charged as a wrong key. -/
theorem c2_amended_invalid_input_witness :
    step demoCatalog (Event.key "Q") gameOverState = gameOverState ∧
    step demoCatalog (Event.key " ") demoAfterCAT =
      { demoAfterCAT with
        score := max 0
          (demoAfterCAT.score - GAME_CONFIG.POINTS_PENALTY_WRONG_KEY)
        typedText := demoAfterCAT.typedText ++ " "
        wrongKeyCount := demoAfterCAT.wrongKeyCount + 1 } := by
  have h := c2_amended_invalid_input demoCatalog demoAfterCAT "DOG" 'D'
    (by decide) (by decide) (by decide) (by decide)
  constructor
  · exact h.1 "Q" gameOverState (by decide)
  · have h2 := h.2 (by decide)
    rw [h2]
    decide

/-- C3: the engine does not shield itself during the delayed word-advance
window.  After two wrong keys on OWL (one advance pending, still PLAYING),
a third keystroke is processed against the stale word: the score drops
again, the buffer grows, and a second word-advance gets scheduled. -/
theorem c3_keystroke_in_delay_window_processed :
    delayWindowState.gameState = GameState.playing ∧
    delayWindowState.pendingAdvance = 1 ∧
    delayWindowState.score = 9 ∧
    delayWindowState.typedText = "XX" ∧
    (step fourWordCatalog (Event.key "X") delayWindowState).score = 6 ∧
    (step fourWordCatalog (Event.key "X") delayWindowState).typedText =
      "XXX" ∧
    (step fourWordCatalog (Event.key "X") delayWindowState).pendingAdvance =
      2 := by
  decide

/-- C4 counterexample: on the one-character word A with score 9, two wrong
keystrokes do not abandon the word — the second keystroke is ignored (the
buffer is already full), so only one penalty applies and no advance ever
fires. -/
theorem c4_counterexample_one_char_word :
    oneCharState.score = 9 ∧
    (run oneCharCatalog [Event.key "X", Event.key "Y", Event.timeout]
      oneCharState).score = 6 ∧
    (run oneCharCatalog [Event.key "X", Event.key "Y", Event.timeout]
      oneCharState).wrongKeyCount = 1 ∧
    ¬ ((run oneCharCatalog [Event.key "X", Event.key "Y", Event.timeout]
          oneCharState).score =
        max 0 (max 0 (max 0 (oneCharState.score -
          GAME_CONFIG.POINTS_PENALTY_WRONG_KEY) -
            GAME_CONFIG.POINTS_PENALTY_WRONG_KEY) -
              GAME_CONFIG.PENALTY_PER_WRONG_WORD) ∧
       ((run oneCharCatalog [Event.key "X", Event.key "Y", Event.timeout]
           oneCharState).currentWordIndex =
          oneCharState.currentWordIndex + 1 ∨
        (run oneCharCatalog [Event.key "X", Event.key "Y", Event.timeout]
          oneCharState).gameState = GameState.riddle)) := by
  decide

/-- C4 amended: for a word of length at least 2, starting fresh on the word,
two wrong keystrokes (each judged against the current buffer position)
followed by the scheduled delayed advance leave the score equal to the
start score after two wrong-key penalties and one wrong-word penalty (each
clamped at 0), and move the engine past the word — to the next word of the
set, or to RIDDLE if it was the last. -/
theorem c4_amended_two_wrong_keys (catalog : List RiddleSet) (s : Session)
    (rs : RiddleSet) (w : String) (x y c0 c1 : Char)
    (hstate : s.gameState = GameState.playing)
    (hrs : catalog[s.currentRiddleIndex]? = some rs)
    (hw : rs.words[s.currentWordIndex]? = some w)
    (h0 : w.data[0]? = some c0)
    (h1 : w.data[1]? = some c1)
    (hx : x ≠ c0) (hy : y ≠ c1)
    (htyped : s.typedText = "")
    (hwrong : s.wrongKeyCount = 0)
    (hpend : s.pendingAdvance = 0) :
    (run catalog [Event.key (String.singleton x),
        Event.key (String.singleton y), Event.timeout] s).score =
      max 0 (max 0 (max 0 (s.score - GAME_CONFIG.POINTS_PENALTY_WRONG_KEY) -
        GAME_CONFIG.POINTS_PENALTY_WRONG_KEY) -
          GAME_CONFIG.PENALTY_PER_WRONG_WORD) ∧
    (s.currentWordIndex + 1 < rs.words.length →
      (run catalog [Event.key (String.singleton x),
          Event.key (String.singleton y), Event.timeout] s).gameState =
        GameState.playing ∧
      (run catalog [Event.key (String.singleton x),
          Event.key (String.singleton y), Event.timeout] s).currentWordIndex =
        s.currentWordIndex + 1 ∧
      (run catalog [Event.key (String.singleton x),
          Event.key (String.singleton y), Event.timeout] s).typedText = "" ∧
      (run catalog [Event.key (String.singleton x),
          Event.key (String.singleton y), Event.timeout] s).wrongKeyCount =
        0) ∧
    (¬ s.currentWordIndex + 1 < rs.words.length →
      (run catalog [Event.key (String.singleton x),
          Event.key (String.singleton y), Event.timeout] s).gameState =
        GameState.riddle) := by
  have hword : currentWordOpt catalog s = some w :=
    currentWordOpt_eq catalog s rs w hrs hw
  have hne : w ≠ "" := ne_empty_of_data_getElem w 0 c0 h0
  have ht0 : w.data[s.typedText.length]? = some c0 := by
    rw [htyped, String.length_empty]
    exact h0
  have e1 : step catalog (Event.key (String.singleton x)) s =
      { s with
        score := max 0 (s.score - GAME_CONFIG.POINTS_PENALTY_WRONG_KEY)
        typedText := s.typedText ++ String.singleton x
        wrongKeyCount := s.wrongKeyCount + 1 } := by
    show handleKeyPress catalog (String.singleton x) s = _
    rw [handleKeyPress_wrong catalog s w c0 (String.singleton x) hstate
      hword hne (singleton_ne_empty x) (singleton_ne_backspace x) ht0
      (by intro h; exact hx ((singleton_eq_singleton_iff x c0).mp h))]
    rw [if_neg (by rw [hwrong]; decide)]
  have hlen1 : (s.typedText ++ String.singleton x).length = 1 := by
    rw [String.length_append, htyped, String.length_empty,
      String.length_singleton]
  have ht1 : w.data[(s.typedText ++ String.singleton x).length]? =
      some c1 := by
    rw [hlen1]
    exact h1
  have e2 : step catalog (Event.key (String.singleton y))
      { s with
        score := max 0 (s.score - GAME_CONFIG.POINTS_PENALTY_WRONG_KEY)
        typedText := s.typedText ++ String.singleton x
        wrongKeyCount := s.wrongKeyCount + 1 } =
      { s with
        score := max 0 (max 0 (s.score -
          GAME_CONFIG.POINTS_PENALTY_WRONG_KEY) -
            GAME_CONFIG.POINTS_PENALTY_WRONG_KEY)
        typedText := (s.typedText ++ String.singleton x) ++
          String.singleton y
        wrongKeyCount := s.wrongKeyCount + 1 + 1
        pendingAdvance := s.pendingAdvance + 1 } := by
    show handleKeyPress catalog (String.singleton y) _ = _
    rw [handleKeyPress_wrong catalog
      { s with
        score := max 0 (s.score - GAME_CONFIG.POINTS_PENALTY_WRONG_KEY)
        typedText := s.typedText ++ String.singleton x
        wrongKeyCount := s.wrongKeyCount + 1 }
      w c1 (String.singleton y) hstate
      hword hne (singleton_ne_empty y) (singleton_ne_backspace y) ht1
      (by intro h; exact hy ((singleton_eq_singleton_iff y c1).mp h))]
    rw [if_pos (show (GAME_CONFIG.MAX_WRONG_KEYS_PER_WORD : Int) ≤
      s.wrongKeyCount + 1 + 1 from by rw [hwrong]; decide)]
  have e3 : step catalog Event.timeout
      { s with
        score := max 0 (max 0 (s.score -
          GAME_CONFIG.POINTS_PENALTY_WRONG_KEY) -
            GAME_CONFIG.POINTS_PENALTY_WRONG_KEY)
        typedText := (s.typedText ++ String.singleton x) ++
          String.singleton y
        wrongKeyCount := s.wrongKeyCount + 1 + 1
        pendingAdvance := s.pendingAdvance + 1 } =
      moveToNextWord catalog false
        { s with
          score := max 0 (max 0 (s.score -
            GAME_CONFIG.POINTS_PENALTY_WRONG_KEY) -
              GAME_CONFIG.POINTS_PENALTY_WRONG_KEY)
          typedText := (s.typedText ++ String.singleton x) ++
            String.singleton y
          wrongKeyCount := s.wrongKeyCount + 1 + 1
          pendingAdvance := s.pendingAdvance + 1 - 1 } := by
    show fireTimeout catalog _ = _
    unfold fireTimeout
    rw [if_pos (by omega : (0 : Nat) < s.pendingAdvance + 1)]
  have hrun : run catalog [Event.key (String.singleton x),
      Event.key (String.singleton y), Event.timeout] s =
      moveToNextWord catalog false
        { s with
          score := max 0 (max 0 (s.score -
            GAME_CONFIG.POINTS_PENALTY_WRONG_KEY) -
              GAME_CONFIG.POINTS_PENALTY_WRONG_KEY)
          typedText := (s.typedText ++ String.singleton x) ++
            String.singleton y
          wrongKeyCount := s.wrongKeyCount + 1 + 1
          pendingAdvance := s.pendingAdvance + 1 - 1 } := by
    rw [run_cons, run_cons, run_cons, run_nil, e1, e2, e3]
  have hfacts := moveToNextWord_false_facts catalog rs
    { s with
      score := max 0 (max 0 (s.score -
        GAME_CONFIG.POINTS_PENALTY_WRONG_KEY) -
          GAME_CONFIG.POINTS_PENALTY_WRONG_KEY)
      typedText := (s.typedText ++ String.singleton x) ++
        String.singleton y
      wrongKeyCount := s.wrongKeyCount + 1 + 1
      pendingAdvance := s.pendingAdvance + 1 - 1 } hrs
  rw [hrun]
  refine ⟨hfacts.1, ?_, hfacts.2.2⟩
  intro hlt
  obtain ⟨hg, hi, htx, hwk⟩ := hfacts.2.1 hlt
  refine ⟨?_, hi, htx, hwk⟩
  rw [hg]
  exact hstate

/-- C4 amended witness: on the two-word demo catalog, typing X then Y on
CAT and letting the delayed advance fire leaves score 0 and moves to DOG. -/
theorem c4_amended_two_wrong_keys_witness :
    (run demoCatalog [Event.key (String.singleton 'X'),
        Event.key (String.singleton 'Y'), Event.timeout] demoInit).score =
      max 0 (max 0 (max 0 (demoInit.score -
        GAME_CONFIG.POINTS_PENALTY_WRONG_KEY) -
          GAME_CONFIG.POINTS_PENALTY_WRONG_KEY) -
            GAME_CONFIG.PENALTY_PER_WRONG_WORD) ∧
    (run demoCatalog [Event.key (String.singleton 'X'),
        Event.key (String.singleton 'Y'), Event.timeout]
      demoInit).gameState = GameState.playing ∧
    (run demoCatalog [Event.key (String.singleton 'X'),
        Event.key (String.singleton 'Y'), Event.timeout]
      demoInit).currentWordIndex = demoInit.currentWordIndex + 1 := by
  have h := c4_amended_two_wrong_keys demoCatalog demoInit
    (demoCatalog.get ⟨0, by decide⟩) "CAT" 'X' 'Y' 'C' 'A'
    (by decide) (by decide) (by decide) (by decide) (by decide)
    (by decide) (by decide) (by decide) (by decide) (by decide)
  have h2 := h.2.1 (by decide)
  exact ⟨h.1, h2.1, h2.2.1⟩

theorem append_singleton_mk (t : String) (c : Char) (l : List Char) :
    (t ++ String.singleton c) ++ String.mk l = t ++ String.mk (c :: l) := by
  apply String.ext
  simp [String.data_append, String.singleton]

theorem run_matching (catalog : List RiddleSet) (rs : RiddleSet)
    (w : String) :
    ∀ (rest : List Char) (s : Session),
      s.gameState = GameState.playing →
      catalog[s.currentRiddleIndex]? = some rs →
      rs.words[s.currentWordIndex]? = some w →
      rest ≠ [] →
      rest = w.data.drop s.typedText.length →
      run catalog (keysFor rest) s =
        moveToNextWord catalog true
          { s with typedText := s.typedText ++ String.mk rest } := by
  intro rest
  induction rest with
  | nil => intro s _ _ _ hnil _; exact absurd rfl hnil
  | cons c rest ih =>
    intro s hstate hrs hw _ hdrop
    have hword : currentWordOpt catalog s = some w :=
      currentWordOpt_eq catalog s rs w hrs hw
    have ht : w.data[s.typedText.length]? = some c := by
      have h0 : (w.data.drop s.typedText.length)[0]? = some c := by
        rw [← hdrop]
        simp
      rw [List.getElem?_drop] at h0
      simpa using h0
    have hne : w ≠ "" := ne_empty_of_data_getElem w _ c ht
    have hlenrest : (c :: rest).length =
        w.data.length - s.typedText.length := by
      rw [hdrop, List.length_drop]
    have hlt : s.typedText.length < w.data.length := by
      have hp : 0 < (c :: rest).length := by simp
      omega
    by_cases hrest : rest = []
    · subst hrest
      have h2 : (1 : Nat) = w.data.length - s.typedText.length := by
        simpa using hlenrest
      have hcomp : (s.typedText ++ String.singleton c).length = w.length := by
        rw [String.length_append, String.length_singleton]
        show s.typedText.length + 1 = w.data.length
        omega
      show run catalog [Event.key (String.singleton c)] s = _
      rw [run_cons, run_nil]
      show handleKeyPress catalog (String.singleton c) s = _
      rw [handleKeyPress_correct catalog s w c (String.singleton c) hstate
        hword hne (singleton_ne_empty c) (singleton_ne_backspace c) ht rfl]
      rw [if_pos hcomp]
      rfl
    · have h3 : 2 ≤ (c :: rest).length := by
        cases rest with
        | nil => exact absurd rfl hrest
        | cons d l => simp only [List.length_cons]; omega
      have hnc : ¬ (s.typedText ++ String.singleton c).length = w.length := by
        rw [String.length_append, String.length_singleton]
        show ¬ s.typedText.length + 1 = w.data.length
        omega
      have e1 : step catalog (Event.key (String.singleton c)) s =
          { s with typedText := s.typedText ++ String.singleton c } := by
        show handleKeyPress catalog (String.singleton c) s = _
        rw [handleKeyPress_correct catalog s w c (String.singleton c) hstate
          hword hne (singleton_ne_empty c) (singleton_ne_backspace c) ht rfl]
        rw [if_neg hnc]
      have hdrop2 : rest =
          w.data.drop (s.typedText ++ String.singleton c).length := by
        rw [String.length_append, String.length_singleton,
          ← List.drop_drop, ← hdrop]
        rfl
      have hrec := ih { s with typedText := s.typedText ++ String.singleton c }
        hstate hrs hw hrest hdrop2
      show run catalog (keysFor (c :: rest)) s = _
      rw [show keysFor (c :: rest) =
        Event.key (String.singleton c) :: keysFor rest from rfl,
        run_cons, e1, hrec]
      show moveToNextWord catalog true
        { s with typedText :=
          (s.typedText ++ String.singleton c) ++ String.mk rest } = _
      rw [append_singleton_mk]

/-- C10: completion is decided purely by buffer length at a matching
keystroke.  After one wrong first key (`wrongKeyCount` 1, one clamped
penalty), typing the characters at positions 1..n-1 of the n-character
word completes it with the full `pointsPerWord` award, despite the
mismatch sitting at position 0 of the buffer. -/
theorem c10_completion_counts_length (catalog : List RiddleSet)
    (s : Session) (rs : RiddleSet) (w : String) (x c0 : Char)
    (hstate : s.gameState = GameState.playing)
    (hrs : catalog[s.currentRiddleIndex]? = some rs)
    (hw : rs.words[s.currentWordIndex]? = some w)
    (hlen2 : 2 ≤ w.length)
    (htyped : s.typedText = "")
    (hwrong : s.wrongKeyCount = 0)
    (h0 : w.data[0]? = some c0)
    (hx : x ≠ c0) :
    (step catalog (Event.key (String.singleton x)) s).wrongKeyCount = 1 ∧
    (step catalog (Event.key (String.singleton x)) s).score =
      max 0 (s.score - GAME_CONFIG.POINTS_PENALTY_WRONG_KEY) ∧
    (run catalog (keysFor (w.data.drop 1))
      (step catalog (Event.key (String.singleton x)) s)).score =
      max 0 (s.score - GAME_CONFIG.POINTS_PENALTY_WRONG_KEY) +
        GAME_CONFIG.POINTS_PER_WORD ∧
    (s.currentWordIndex + 1 < rs.words.length →
      (run catalog (keysFor (w.data.drop 1))
        (step catalog (Event.key (String.singleton x)) s)).gameState =
          GameState.playing ∧
      (run catalog (keysFor (w.data.drop 1))
        (step catalog (Event.key (String.singleton x)) s)).currentWordIndex =
          s.currentWordIndex + 1) ∧
    (¬ s.currentWordIndex + 1 < rs.words.length →
      (run catalog (keysFor (w.data.drop 1))
        (step catalog (Event.key (String.singleton x)) s)).gameState =
          GameState.riddle) := by
  have hword : currentWordOpt catalog s = some w :=
    currentWordOpt_eq catalog s rs w hrs hw
  have hne : w ≠ "" := ne_empty_of_data_getElem w 0 c0 h0
  have ht0 : w.data[s.typedText.length]? = some c0 := by
    rw [htyped, String.length_empty]
    exact h0
  have e1 : step catalog (Event.key (String.singleton x)) s =
      { s with
        score := max 0 (s.score - GAME_CONFIG.POINTS_PENALTY_WRONG_KEY)
        typedText := s.typedText ++ String.singleton x
        wrongKeyCount := s.wrongKeyCount + 1 } := by
    show handleKeyPress catalog (String.singleton x) s = _
    rw [handleKeyPress_wrong catalog s w c0 (String.singleton x) hstate
      hword hne (singleton_ne_empty x) (singleton_ne_backspace x) ht0
      (by intro h; exact hx ((singleton_eq_singleton_iff x c0).mp h))]
    rw [if_neg (by rw [hwrong]; decide)]
  have hlen1 : (s.typedText ++ String.singleton x).length = 1 := by
    rw [String.length_append, htyped, String.length_empty,
      String.length_singleton]
  have hdropeq : w.data.drop 1 =
      w.data.drop (s.typedText ++ String.singleton x).length := by
    rw [hlen1]
  have hrestne : w.data.drop 1 ≠ [] := by
    apply List.ne_nil_of_length_pos
    rw [List.length_drop]
    have : 2 ≤ w.data.length := hlen2
    omega
  have hrec := run_matching catalog rs w (w.data.drop 1)
    { s with
      score := max 0 (s.score - GAME_CONFIG.POINTS_PENALTY_WRONG_KEY)
      typedText := s.typedText ++ String.singleton x
      wrongKeyCount := s.wrongKeyCount + 1 }
    hstate hrs hw hrestne hdropeq
  have hfacts := moveToNextWord_true_facts catalog rs
    { s with
      score := max 0 (s.score - GAME_CONFIG.POINTS_PENALTY_WRONG_KEY)
      typedText := (s.typedText ++ String.singleton x) ++
        String.mk (w.data.drop 1)
      wrongKeyCount := s.wrongKeyCount + 1 } hrs
  refine ⟨?_, ?_, ?_, ?_, ?_⟩
  · rw [e1]
    show s.wrongKeyCount + 1 = 1
    rw [hwrong]
    omega
  · rw [e1]
  · rw [e1, hrec]
    exact hfacts.1
  · intro hlt
    rw [e1, hrec]
    obtain ⟨hg, hi, _, _⟩ := hfacts.2.1 hlt
    refine ⟨?_, hi⟩
    rw [hg]
    exact hstate
  · intro hlt
    rw [e1, hrec]
    exact hfacts.2.2 hlt

/-- C10 witness: on CAT, the wrong key X then the matching keys A, T
complete the word for +5 despite the mismatch at position 0: the score goes
from 0 to max(0, 0-3) + 5 = 5 and the engine advances to word index 1. -/
theorem c10_completion_counts_length_witness :
    (step demoCatalog (Event.key (String.singleton 'X'))
      demoInit).wrongKeyCount = 1 ∧
    (run demoCatalog (keysFor ("CAT".data.drop 1))
      (step demoCatalog (Event.key (String.singleton 'X'))
        demoInit)).score =
      max 0 (demoInit.score - GAME_CONFIG.POINTS_PENALTY_WRONG_KEY) +
        GAME_CONFIG.POINTS_PER_WORD ∧
    (run demoCatalog (keysFor ("CAT".data.drop 1))
      (step demoCatalog (Event.key (String.singleton 'X'))
        demoInit)).gameState = GameState.playing ∧
    (run demoCatalog (keysFor ("CAT".data.drop 1))
      (step demoCatalog (Event.key (String.singleton 'X'))
        demoInit)).currentWordIndex = demoInit.currentWordIndex + 1 := by
  have h := c10_completion_counts_length demoCatalog demoInit
    (demoCatalog.get ⟨0, by decide⟩) "CAT" 'X' 'C'
    (by decide) (by decide) (by decide) (by decide) (by decide)
    (by decide) (by decide) (by decide)
  have h2 := h.2.2.2.1 (by decide)
  exact ⟨h.1, h.2.2.1, h2.1, h2.2⟩

end KeyQuest
